import Mathlib

/-!
Verification of the request-dispatch engine of the garyburd/web repository
(package router, file router.go), against its natural-language specification.

Modelling conventions:
  - Go strings are byte sequences; we embed them as `List Nat`, each element a
    byte value.  ASCII literals are written with the helper `ascii`.
  - The Go regexp library is not code of this repository.  Compiled route
    patterns are embedded structurally: `compilePattern` emits the exact
    sequence of regex fragments that router.go builds (quoted literal text,
    named or non-capturing groups, the default class excluding the separator,
    and the optional trailing slash added for patterns ending in the
    separator).  A user-supplied regex fragment inside a placeholder
    (`<name:regex>`) is kept as uninterpreted text; its matching semantics is
    a parameter `sem : RegexSem` of every matching function, standing for the
    Go regexp engine on that fragment.
  - Handlers are opaque; we tag them with `Nat` identifiers.  The configurable
    error callback of the router is represented by the `Outcome.errorResp`
    constructor carrying the HTTP status the callback receives.
-/

set_option maxRecDepth 8000

/-- A Go string: a sequence of bytes. -/
abbrev GoStr := List Nat

/-- Byte representation of an ASCII string literal. -/
def ascii (s : String) : GoStr := s.data.map Char.toNat

/-- router.go, const notHex. -/
def notHex : Nat := 127

/-- router.go, func dehex: value of a hex digit byte, or notHex. -/
def dehex (b : Nat) : Nat :=
  if 48 ≤ b ∧ b ≤ 57 then b - 48
  else if 97 ≤ b ∧ b ≤ 102 then b - 97 + 10
  else if 65 ≤ b ∧ b ≤ 70 then b - 65 + 10
  else notHex

/-- Result of a Go call returning (string, error) with a single possible
error value (errBadRequest in router.go). -/
inductive DecodeResult where
  | ok (s : GoStr)
  | err
deriving DecidableEq, Repr

/-- router.go, func percentDecode, main loop: copy literal bytes; a 37
(the percent byte) must be followed by two hex digits and becomes the byte
with that hex value (a shl 4 or b = 16*a + b for a, b < 16); a percent byte
followed by fewer than two bytes, or by a non-hex byte, is an error. -/
def percentDecodeLoop : GoStr → DecodeResult
  | [] => DecodeResult.ok []
  | c :: rest =>
    if c = 37 then
      match rest with
      | a :: b :: rest2 =>
        if dehex a = notHex ∨ dehex b = notHex then DecodeResult.err
        else
          match percentDecodeLoop rest2 with
          | DecodeResult.ok t => DecodeResult.ok ((dehex a * 16 + dehex b) :: t)
          | DecodeResult.err => DecodeResult.err
      | _ => DecodeResult.err
    else
      match percentDecodeLoop rest with
      | DecodeResult.ok t => DecodeResult.ok (c :: t)
      | DecodeResult.err => DecodeResult.err

/-- router.go, func percentDecode: fast path returns the input unchanged when
it contains no percent byte, otherwise runs the decode loop. -/
def percentDecode (s : GoStr) : DecodeResult :=
  if 37 ∈ s then percentDecodeLoop s else DecodeResult.ok s

/-!  Go standard library path.Clean, as called by Router.Serve.  The lazybuf
output buffer is represented reversed (head = last written byte); `dd` is the
dotdot barrier index of the Go code.  -/

/-- path.Clean, the dotdot backtrack: the Go code decrements the write index
once and then keeps decrementing while it is above the barrier and the byte
just passed is not a slash.  On the reversed buffer this pops the head and
keeps popping while the buffer is longer than the barrier and the popped byte
is not 47. -/
def dotdotPop (dd : Nat) : GoStr → GoStr
  | [] => []
  | c :: rest => if dd < rest.length ∧ c ≠ 47 then dotdotPop dd rest else rest

/-- path.Clean, the dotdot case of the main switch: backtrack when the buffer
is above the barrier; otherwise, when not rooted, append a dotdot element
(preceded by a slash when the buffer is nonempty) and move the barrier to the
new end of the buffer; otherwise do nothing. -/
def ddApply (rooted : Bool) (out : GoStr) (dd : Nat) : GoStr × Nat :=
  if dd < out.length then (dotdotPop dd out, dd)
  else if !rooted then
    let out1 := if 0 < out.length then 46 :: 46 :: 47 :: out else 46 :: 46 :: out
    (out1, out1.length)
  else (out, dd)

/-- path.Clean, main loop over the remaining input.  One constructor case per
case of the Go switch: a slash byte is an empty element; a dot followed by a
slash or the end is a dot element; dot dot followed by a slash or the end is a
dotdot element; anything else starts a real element which is copied (preceded
by a slash unless the buffer is at its initial position).  Each step consumes
at least one input byte, so fuel equal to the input length never runs out. -/
def cleanLoop (rooted : Bool) : Nat → GoStr → GoStr → Nat → GoStr
  | 0, _, out, _ => out
  | _ + 1, [], out, _ => out
  | fuel + 1, c :: rest, out, dd =>
    if c = 47 then cleanLoop rooted fuel rest out dd
    else if c = 46 ∧ (rest.head? = none ∨ rest.head? = some 47) then
      cleanLoop rooted fuel rest out dd
    else if c = 46 ∧ rest.head? = some 46 ∧
        (rest.tail.head? = none ∨ rest.tail.head? = some 47) then
      let st := ddApply rooted out dd
      cleanLoop rooted fuel rest.tail st.1 st.2
    else
      let elem := (c :: rest).takeWhile (fun b => b != 47)
      let rest2 := (c :: rest).dropWhile (fun b => b != 47)
      let out1 :=
        if (rooted && out.length != 1) || (!rooted && out.length != 0) then 47 :: out
        else out
      cleanLoop rooted fuel rest2 (elem.reverse ++ out1) dd

/-- Go path.Clean.  An empty path yields a single dot; a rooted path starts
the buffer with a slash, consumes the leading slash and sets the barrier to
one; an empty result yields a single dot. -/
def goClean (p : GoStr) : GoStr :=
  if p = [] then [46]
  else
    let rooted := p.head? == some 47
    let out :=
      if rooted then cleanLoop true p.length p.tail [47] 1
      else cleanLoop false p.length p [] 0
    if out = [] then [46] else out.reverse

example : goClean (ascii "/a/b/..") = ascii "/a" := by decide
example : goClean (ascii "//") = ascii "/" := by decide
example : goClean (ascii "/a//b") = ascii "/a/b" := by decide
example : goClean (ascii "/../a") = ascii "/a" := by decide
example : goClean (ascii "/a/./b/") = ascii "/a/b" := by decide
example : goClean (ascii "a/../..") = ascii ".." := by decide
example : goClean (ascii "") = ascii "." := by decide
example : goClean (ascii "/d") = ascii "/d" := by decide

example : percentDecode (ascii "a/b") = DecodeResult.ok (ascii "a/b") := by decide
example : percentDecode (ascii "a%2fb") = DecodeResult.ok (ascii "a/b") := by decide
example : percentDecode (ascii "a%2Fb") = DecodeResult.ok (ascii "a/b") := by decide
example : percentDecode (ascii "a%2F") = DecodeResult.ok (ascii "a/") := by decide
example : percentDecode (ascii "a%2") = DecodeResult.err := by decide
example : percentDecode (ascii "%") = DecodeResult.err := by decide

/-!  Pattern compilation.  router.go scans the pattern with the regex
parameterRegexp, text form: open angle bracket, a name of word bytes
(A-Za-z0-9 underscore, possibly empty), an optional colon followed by
non-close-angle bytes, and a close angle bracket.  -/

/-- A byte in the name class of parameterRegexp. -/
def isWordByte (b : Nat) : Bool :=
  decide ((65 ≤ b ∧ b ≤ 90) ∨ (97 ≤ b ∧ b ≤ 122) ∨ (48 ≤ b ∧ b ≤ 57) ∨ b = 95)

/-- Does parameterRegexp match at the head of the string?  Returns the name,
the optional regex text (the bytes after the colon), and the bytes after the
close angle bracket.  The name class is maximal-munch safe: the name group is
greedy, and since the colon and close angle bracket are not word bytes, a
shorter name can never turn a failure into a match; likewise the regex text
group stops exactly at the first close angle bracket.  So this deterministic
scan agrees with the leftmost-first matching of the Go engine. -/
def parsePlaceholder : GoStr → Option (GoStr × Option GoStr × GoStr)
  | 60 :: rest =>
    let name := rest.takeWhile isWordByte
    match rest.dropWhile isWordByte with
    | 62 :: after => some (name, none, after)
    | 58 :: rest2 =>
      (match rest2.dropWhile (fun b => b != 62) with
       | 62 :: after => some (name, some (rest2.takeWhile (fun b => b != 62)), after)
       | _ => none)
    | _ => none
  | _ => none

/-- parameterRegexp.FindStringSubmatchIndex: leftmost match of the placeholder
syntax, returned as (text before the match, name, optional regex text, text
after the match). -/
def findParam : GoStr → Option (GoStr × GoStr × Option GoStr × GoStr)
  | [] => none
  | c :: rest =>
    match parsePlaceholder (c :: rest) with
    | some (name, re, after) => some ([], name, re, after)
    | none =>
      match findParam rest with
      | some (pre, name, re, after) => some (c :: pre, name, re, after)
      | none => none

/-- One fragment of the regex text built by compilePattern: quoted literal
text, a group for a placeholder (named when the name is nonempty, otherwise
non-capturing; regex `none` is the default class, one or more bytes excluding
the separator), or the optional trailing slash emitted for addSlash
patterns. -/
inductive Seg where
  | lit (s : GoStr)
  | cap (name : GoStr) (re : Option GoStr)
  | optSlash
deriving DecidableEq, Repr

/-- The loop of compilePattern: split the pattern at each leftmost placeholder
match.  Every placeholder consumes at least two bytes of the pattern, so fuel
equal to the pattern length never runs out. -/
def compileSegs : Nat → GoStr → List Seg
  | 0, pat => [Seg.lit pat]
  | fuel + 1, pat =>
    match findParam pat with
    | none => [Seg.lit pat]
    | some (pre, name, re, rest) => Seg.lit pre :: Seg.cap name re :: compileSegs fuel rest

/-- A compiled pattern: the fragment list, the addSlash flag (pattern ended in
a slash, the final slash of the regex is made optional), and the separator
byte baked into the default class (47 for paths, 46 for hosts).  The emitted
regex text is anchored at both ends; correspondingly `segsMatch` below only
accepts when the whole candidate string is consumed. -/
structure CompiledPat where
  segs : List Seg
  addSlash : Bool
  sep : Nat
deriving DecidableEq, Repr

/-- router.go, func compilePattern: returns none exactly when the pattern
contains no placeholder (hasParam stays false and the function returns nil,
making the route a literal route). -/
def compilePattern (pat : GoStr) (addSlash : Bool) (sep : Nat) : Option CompiledPat :=
  match findParam pat with
  | none => none
  | some _ => some { segs := compileSegs pat.length pat, addSlash := addSlash, sep := sep }

/-!  Matching of a compiled pattern.  -/

/-- Capture list of a match: the named groups in order, as (name, value)
pairs.  Go FindStringSubmatch also reports the whole match and SubexpNames
reports an empty name for it; router.go skips every empty name both when
decoding and when populating the context, so keeping only the named groups is
observationally equivalent. -/
abbrev Caps := List (GoStr × GoStr)

/-- Semantics of a user-written regex fragment (the text after the colon in a
placeholder): does the fragment match exactly this byte string?  This stands
for the Go regexp engine, which is not code of this repository. -/
abbrev RegexSem := GoStr → GoStr → Bool

/-- Does this group body match exactly the candidate bytes?  The default class
is one or more bytes none of which is the separator. -/
def capOK (sem : RegexSem) (sep : Nat) (re : Option GoStr) (v : GoStr) : Bool :=
  match re with
  | none => (!v.isEmpty) && v.all (fun b => b != sep)
  | some r => sem r v

/-- First result of f over the list, in order. -/
def firstSome (f : α → Option β) : List α → Option β
  | [] => none
  | a :: rest =>
    match f a with
    | some b => some b
    | none => firstSome f rest

/-- Backtracking matcher for the anchored regex built by compilePattern,
with the preference order of the Go engine (leftmost-first): a group tries
longer prefixes first (greedy), the optional slash prefers to consume.  The
whole candidate string must be consumed (the regex is anchored).  A literal
fragment must be an exact prefix (QuoteMeta makes literal text match
itself). -/
def segsMatch (sem : RegexSem) (sep : Nat) : List Seg → GoStr → Option Caps
  | [], s => if s.isEmpty then some [] else none
  | Seg.lit l :: rest, s =>
    if l = s.take l.length then segsMatch sem sep rest (s.drop l.length) else none
  | Seg.optSlash :: rest, s =>
    (match s with
     | c :: s2 =>
       if c = 47 then
         (match segsMatch sem sep rest s2 with
          | some caps => some caps
          | none => segsMatch sem sep rest (c :: s2))
       else segsMatch sem sep rest (c :: s2)
     | [] => segsMatch sem sep rest [])
  | Seg.cap name re :: rest, s =>
    firstSome
      (fun k =>
        let v := s.take k
        if capOK sem sep re v then
          match segsMatch sem sep rest (s.drop k) with
          | some caps => some (if name.isEmpty then caps else (name, v) :: caps)
          | none => none
        else none)
      ((List.range (s.length + 1)).reverse)

/-- For an addSlash pattern the Go code appends a question mark before the end
anchor, making the final byte of the final quoted literal fragment (the
trailing slash of the pattern) optional. -/
def addOptSlash : List Seg → List Seg
  | [] => []
  | s :: rest =>
    match rest with
    | [] =>
      (match s with
       | Seg.lit l =>
         if l.getLast? = some 47 then [Seg.lit l.dropLast, Seg.optSlash] else [Seg.lit l]
       | s2 => [s2])
    | b :: rest2 => s :: addOptSlash (b :: rest2)

/-- cpat.FindStringSubmatch: match the candidate against the compiled pattern
(with the optional trailing slash when addSlash is set), returning the named
captures, or none when there is no match. -/
def CompiledPat.find (sem : RegexSem) (cp : CompiledPat) (s : GoStr) : Option Caps :=
  segsMatch sem cp.sep (if cp.addSlash then addOptSlash cp.segs else cp.segs) s

/-- Regex fragment semantics used in concrete examples: interprets the one
fragment appearing in the examples (the digit class, one or more). -/
def semDigits : RegexSem := fun re v =>
  (re == ascii "[0-9]+") && (!v.isEmpty) && v.all (fun b => decide (48 ≤ b ∧ b ≤ 57))

example : compilePattern (ascii "/a") false 47 = none := by decide
example : findParam (ascii "/f/<x>") =
    some (ascii "/f/", ascii "x", none, []) := by decide
example : (compilePattern (ascii "/f/<x>") false 47).map CompiledPat.segs =
    some [Seg.lit (ascii "/f/"), Seg.cap (ascii "x") none, Seg.lit []] := by decide
example : (compilePattern (ascii "/h/<x:[0-9]+>") false 47).map CompiledPat.segs =
    some [Seg.lit (ascii "/h/"), Seg.cap (ascii "x") (some (ascii "[0-9]+")), Seg.lit []] := by
  decide
example :
    (compilePattern (ascii "/g/<x>/<y>/") true 47).map
      (fun cp => addOptSlash cp.segs) =
    some [Seg.lit (ascii "/g/"), Seg.cap (ascii "x") none, Seg.lit (ascii "/"),
      Seg.cap (ascii "y") none, Seg.lit [], Seg.optSlash] := by decide

example :
    (compilePattern (ascii "/f/<x>") false 47).bind
      (fun cp => cp.find semDigits (ascii "/f/foo")) =
    some [(ascii "x", ascii "foo")] := by decide
example :
    (compilePattern (ascii "/f/<x>") false 47).bind
      (fun cp => cp.find semDigits (ascii "/f/foo/")) = none := by decide
example :
    (compilePattern (ascii "/g/<x>/<y>/") true 47).bind
      (fun cp => cp.find semDigits (ascii "/g/foo/bar")) =
    some [(ascii "x", ascii "foo"), (ascii "y", ascii "bar")] := by decide
example :
    (compilePattern (ascii "/h/<x:[0-9]+>") false 47).bind
      (fun cp => cp.find semDigits (ascii "/h/99")) =
    some [(ascii "x", ascii "99")] := by decide
example :
    (compilePattern (ascii "/h/<x:[0-9]+>") false 47).bind
      (fun cp => cp.find semDigits (ascii "/h/foo")) = none := by decide
example :
    (compilePattern (ascii "<:.*>") false 46).map CompiledPat.segs =
    some [Seg.lit [], Seg.cap [] (some (ascii ".*")), Seg.lit []] := by decide
example : findParam (ascii "/x/<na-me>") = none := by decide

/-!  Route table and path router.  Handlers are opaque Nat tags; the method
map of a route is an association list standing for the Go map (last insert
for a key replaces its value, lookup is key equality).  -/

/-- Lookup in a Go map modelled as an association list. -/
def mapLookup : List (GoStr × α) → GoStr → Option α
  | [], _ => none
  | (k, v) :: rest, key => if k = key then some v else mapLookup rest key

/-- Insert in a Go map modelled as an association list: replace the binding
of the key when present, otherwise append. -/
def mapInsert : List (GoStr × α) → GoStr → α → List (GoStr × α)
  | [], key, v => [(key, v)]
  | (k, w) :: rest, key, v =>
    if k = key then (key, v) :: rest else (k, w) :: mapInsert rest key v

/-- router.go, type Route: pattern, addSlash flag, compiled pattern (none for
a literal route), and the method map.  The Method, Get and Post builder calls
just set entries of the map; we take the finished map at registration. -/
structure Route where
  pat : GoStr
  addSlash : Bool
  cpat : Option CompiledPat
  handlers : List (GoStr × Nat)
deriving DecidableEq, Repr

/-- r.cpat.FindStringSubmatch for a route on the regex list.  Routes on the
list always have a compiled pattern (Router.Add only appends them there); a
missing pattern matches nothing. -/
def Route.find (sem : RegexSem) (r : Route) (s : GoStr) : Option Caps :=
  match r.cpat with
  | none => none
  | some cp => cp.find sem s

/-- router.go, type Router.  The error callback is not part of the state; the
statuses it receives appear in the dispatch outcome. -/
structure Router where
  simpleMatch : List (GoStr × Route)
  routes : List Route
  useURLPath : Bool
deriving DecidableEq, Repr

/-- router.go, func New (the error callback it installs is represented by the
Outcome statuses). -/
def Router.new : Router := { simpleMatch := [], routes := [], useURLPath := false }

/-- The scan loop shared by Router.findRoute and HostRouter.findRoute: first
element of the list whose matcher succeeds, with its captures. -/
def scanFirst (f : α → Option Caps) : List α → Option (α × Caps)
  | [] => none
  | r :: rest =>
    match f r with
    | some caps => some (r, caps)
    | none => scanFirst f rest

/-- router.go, Router.findRoute: literal map first (no captures), else the
ordered regex route list, first match wins. -/
def Router.findRoute (router : Router) (sem : RegexSem) (path : GoStr) :
    Option (Route × Caps) :=
  match mapLookup router.simpleMatch path with
  | some r => some (r, [])
  | none => scanFirst (fun r => r.find sem path) router.routes

/-- The handler chosen by Router.findHandler: the closure invoking the error
callback with 404, the addSlash redirect handler, the closure invoking the
error callback with 405, or a registered handler. -/
inductive FoundHandler where
  | notFound
  | addSlash
  | methodNotAllowed
  | user (h : Nat)
deriving DecidableEq, Repr

/-- router.go, Router.findHandler: no route gives the 404 closure; a route
whose pattern ended in a slash redirects a path not ending in a slash; else
the method map is consulted with the exact method, then GET when the method
is HEAD, then the star wildcard; all nil gives the 405 closure. -/
def Router.findHandler (router : Router) (sem : RegexSem) (path method : GoStr) :
    FoundHandler × Caps :=
  match router.findRoute sem path with
  | none => (FoundHandler.notFound, [])
  | some (route, caps) =>
    if route.addSlash = true ∧ path.getLast? ≠ some 47 then (FoundHandler.addSlash, [])
    else
      let h0 := mapLookup route.handlers method
      let h1 := if h0 = none ∧ method = ascii "HEAD" then mapLookup route.handlers (ascii "GET") else h0
      let h2 := if h1 = none then mapLookup route.handlers (ascii "*") else h1
      match h2 with
      | none => (FoundHandler.methodNotAllowed, [])
      | some h => (FoundHandler.user h, caps)

/-- Result of Router.Add: the updated router, or a panic (invalid pattern or
ambiguous route).  On panic the router is not modified and no route is
added. -/
inductive AddResult where
  | ok (r : Router)
  | fail
deriving DecidableEq, Repr

/-- router.go, Router.Add, with the method map of the new route supplied up
front (the map is shared between both literal keys, as the single Go route
object is).  An empty pattern or one not starting with a slash panics.  A
pattern with a placeholder is appended to the ordered regex list with no
collision check.  A literal pattern panics when findRoute already resolves it
(against the literal map or any compiled route); otherwise it is inserted
under its own key and, for an addSlash pattern, also under the key with the
trailing slash stripped, unless findRoute (after the first insert) resolves
that stripped key. -/
def Router.add (sem : RegexSem) (router : Router) (pat : GoStr)
    (handlers : List (GoStr × Nat)) : AddResult :=
  if pat = [] ∨ pat.head? ≠ some 47 then AddResult.fail
  else
    let addSlash := decide (pat ≠ [47] ∧ pat.getLast? = some 47)
    let cpat := compilePattern pat addSlash 47
    let route : Route := { pat := pat, addSlash := addSlash, cpat := cpat, handlers := handlers }
    match cpat with
    | some _ => AddResult.ok { router with routes := router.routes ++ [route] }
    | none =>
      if (router.findRoute sem pat).isSome then AddResult.fail
      else
        let router1 := { router with simpleMatch := mapInsert router.simpleMatch pat route }
        if addSlash then
          let pat2 := pat.dropLast
          if (router1.findRoute sem pat2).isSome then AddResult.ok router1
          else AddResult.ok
            { router1 with simpleMatch := mapInsert router1.simpleMatch pat2 route }
        else AddResult.ok router1

/-!  Request dispatch.  -/

/-- The request fields the router reads: RequestURI, the parsed URL path and
raw query, and the method.  (The host router also reads the Host header; its
Serve is not modelled here, only its table, cf. HostRouter below.) -/
structure Request where
  requestURI : GoStr
  urlPath : GoStr
  rawQuery : GoStr
  method : GoStr
deriving DecidableEq, Repr

/-- Observable outcome of one dispatch: a 301 redirect to a location, an
error response produced through the error callback with a status, or the
invocation of a registered handler with the parameter list that withParams
stores in the context. -/
inductive Outcome where
  | redirect (loc : GoStr)
  | errorResp (status : Nat)
  | handled (h : Nat) (params : Caps)
deriving DecidableEq, Repr

/-- The decode loop of Router.Serve: every capture with a nonempty name is
percent-decoded in place; the first failure aborts with an error. -/
def decodeParams : Caps → Except Unit Caps
  | [] => Except.ok []
  | (n, v) :: rest =>
    if n.isEmpty then
      match decodeParams rest with
      | Except.ok t => Except.ok ((n, v) :: t)
      | Except.error e => Except.error e
    else
      match percentDecode v with
      | DecodeResult.err => Except.error ()
      | DecodeResult.ok v2 =>
        match decodeParams rest with
        | Except.ok t => Except.ok ((n, v2) :: t)
        | Except.error e => Except.error e

/-- Invocation of the handler found by findHandler, after the decode loop of
Router.Serve when doDecode is set (the default mode; the useURLPath mode
skips decoding).  The 404 and 405 closures call the error callback; the
addSlash handler redirects to the URL path plus a slash, plus the raw query
when nonempty. -/
def dispatchFound (fc : FoundHandler × Caps) (req : Request) (doDecode : Bool) : Outcome :=
  match fc.1 with
  | FoundHandler.notFound => Outcome.errorResp 404
  | FoundHandler.methodNotAllowed => Outcome.errorResp 405
  | FoundHandler.addSlash =>
    Outcome.redirect (req.urlPath ++ [47] ++ (if req.rawQuery.isEmpty then [] else 63 :: req.rawQuery))
  | FoundHandler.user h =>
    if doDecode then
      match decodeParams fc.2 with
      | Except.error _ => Outcome.errorResp 400
      | Except.ok ps => Outcome.handled h ps
    else Outcome.handled h fc.2

/-- The canonical-path computation inlined in Router.Serve: an empty path or
a single slash gives a single slash; otherwise the cleaned path, with a
trailing slash appended whenever the original path ended in one. -/
def cleanRequestPath (p : GoStr) : GoStr :=
  if p = [] ∨ p = [47] then [47]
  else
    let c := goClean p
    if p.getLast? = some 47 then c ++ [47] else c

/-- router.go, Router.Serve.  In useURLPath mode, dispatch on the parsed URL
path with no normalization and no decoding.  Otherwise: split RequestURI at
the first question mark into path and query (the query keeps its question
mark), redirect permanently to the canonical path plus the query when they
differ, else find the handler, percent-decode the named captures (an error
gives a 400 response through the error callback), and invoke the handler. -/
def Router.serve (sem : RegexSem) (router : Router) (req : Request) : Outcome :=
  if router.useURLPath then
    dispatchFound (router.findHandler sem req.urlPath req.method) req false
  else
    let p := req.requestURI.takeWhile (fun b => b != 63)
    let q := req.requestURI.dropWhile (fun b => b != 63)
    let cp := cleanRequestPath p
    if p ≠ cp then Outcome.redirect (cp ++ q)
    else dispatchFound (router.findHandler sem p req.method) req true

/-!  Host router (only registration and lookup are modelled; its Serve also
lowercases the host and strips the port through net.SplitHostPort, which is
outside this repository).  -/

/-- router.go, type hostRoute. -/
structure HostRoute where
  cpat : Option CompiledPat
  handler : Nat
  pat : GoStr
deriving DecidableEq, Repr

/-- Matching a host route, cf. Route.find. -/
def HostRoute.find (sem : RegexSem) (r : HostRoute) (s : GoStr) : Option Caps :=
  match r.cpat with
  | none => none
  | some cp => cp.find sem s

/-- router.go, type HostRouter. -/
structure HostRouter where
  routes : List HostRoute
  simpleMatch : List (GoStr × HostRoute)
deriving DecidableEq, Repr

/-- Result of HostRouter.Add. -/
inductive HostAddResult where
  | ok (r : HostRouter)
  | fail
deriving DecidableEq, Repr

/-- router.go, HostRouter.findRoute: literal map first, else ordered regex
scan, first match wins. -/
def HostRouter.findRoute (router : HostRouter) (sem : RegexSem) (host : GoStr) :
    Option (HostRoute × Caps) :=
  match mapLookup router.simpleMatch host with
  | some r => some (r, [])
  | none => scanFirst (fun r => r.find sem host) router.routes

/-- router.go, HostRouter.Add: compile with separator 46 and no addSlash; a
pattern with a placeholder is appended with no check; a literal pattern
panics when findRoute already resolves it, else is inserted. -/
def HostRouter.add (sem : RegexSem) (router : HostRouter) (pat : GoStr)
    (handler : Nat) : HostAddResult :=
  let cpat := compilePattern pat false 46
  let route : HostRoute := { cpat := cpat, handler := handler, pat := pat }
  match cpat with
  | some _ => HostAddResult.ok { router with routes := router.routes ++ [route] }
  | none =>
    if (router.findRoute sem pat).isSome then HostAddResult.fail
    else HostAddResult.ok
      { router with simpleMatch := mapInsert router.simpleMatch pat route }

/-!  Sanity: the route table of TestRouter in router_test.go, and the
expected rows of its table-driven test.  -/

/-- Registration chain helper for examples: none when any Add panics. -/
def tryAdd (sem : RegexSem) (r : Option Router) (pat : String)
    (hs : List (GoStr × Nat)) : Option Router :=
  match r with
  | none => none
  | some router =>
    match Router.add sem router (ascii pat) hs with
    | AddResult.ok r2 => some r2
    | AddResult.fail => none

/-- The TestRouter table; handler tags number the test handlers. -/
def testRouterOpt : Option Router :=
  tryAdd semDigits (some Router.new) "/" [(ascii "GET", 1)]
  |> (tryAdd semDigits · "/a" [(ascii "GET", 2), (ascii "*", 3)])
  |> (tryAdd semDigits · "/b" [(ascii "GET", 4), (ascii "POST", 5)])
  |> (tryAdd semDigits · "/c" [(ascii "*", 6)])
  |> (tryAdd semDigits · "/d/" [(ascii "GET", 7)])
  |> (tryAdd semDigits · "/e" [(ascii "GET", 8)])
  |> (tryAdd semDigits · "/e/" [(ascii "GET", 9)])
  |> (tryAdd semDigits · "/f/<x>" [(ascii "GET", 10)])
  |> (tryAdd semDigits · "/f/" [(ascii "GET", 11)])
  |> (tryAdd semDigits · "/g/<x>/<y>/" [(ascii "GET", 12)])
  |> (tryAdd semDigits · "/h/<x:[0-9]+>" [(ascii "GET", 13)])
  |> (tryAdd semDigits · "/h/xx/i/" [(ascii "GET", 14)])
  |> (tryAdd semDigits · "/j/<x>/d/" [(ascii "GET", 15)])
  |> (tryAdd semDigits · "/kk/<x>" [(ascii "GET", 16)])

example : testRouterOpt.isSome = true := by decide

def testRouter : Router := testRouterOpt.getD Router.new

/-- A test request: RequestURI and URL path from the url column (no escapes
in the rows that reach the URL path), empty raw query. -/
def mkReq (u m : String) : Request :=
  { requestURI := ascii u, urlPath := ascii u, rawQuery := [], method := ascii m }

example : testRouter.serve semDigits (mkReq "/Bogus/Path" "GET") = Outcome.errorResp 404 := by
  decide
example : testRouter.serve semDigits (mkReq "/" "GET") = Outcome.handled 1 [] := by decide
example : testRouter.serve semDigits (mkReq "/" "HEAD") = Outcome.handled 1 [] := by decide
example : testRouter.serve semDigits (mkReq "/" "POST") = Outcome.errorResp 405 := by decide
example : testRouter.serve semDigits (mkReq "/a" "POST") = Outcome.handled 3 [] := by decide
example : testRouter.serve semDigits (mkReq "/a/" "GET") = Outcome.errorResp 404 := by decide
example : testRouter.serve semDigits (mkReq "/b" "POST") = Outcome.handled 5 [] := by decide
example : testRouter.serve semDigits (mkReq "/b" "PUT") = Outcome.errorResp 405 := by decide
example : testRouter.serve semDigits (mkReq "/c" "HEAD") = Outcome.handled 6 [] := by decide
example : testRouter.serve semDigits (mkReq "/d" "GET") =
    Outcome.redirect (ascii "/d/") := by decide
example : testRouter.serve semDigits (mkReq "/d/" "GET") = Outcome.handled 7 [] := by decide
example : testRouter.serve semDigits (mkReq "/e" "GET") = Outcome.handled 8 [] := by decide
example : testRouter.serve semDigits (mkReq "/e/" "GET") = Outcome.handled 9 [] := by decide
example : testRouter.serve semDigits (mkReq "/f/foo" "GET") =
    Outcome.handled 10 [(ascii "x", ascii "foo")] := by decide
example : testRouter.serve semDigits (mkReq "/f/foo%2fbar" "GET") =
    Outcome.handled 10 [(ascii "x", ascii "foo/bar")] := by decide
example : testRouter.serve semDigits (mkReq "/f/foo%2" "GET") = Outcome.errorResp 400 := by
  decide
example : testRouter.serve semDigits (mkReq "/f/foo/" "GET") = Outcome.errorResp 404 := by
  decide
example : testRouter.serve semDigits (mkReq "/g/foo/bar" "GET") =
    Outcome.redirect (ascii "/g/foo/bar/") := by decide
example : testRouter.serve semDigits (mkReq "/g/foo/bar/" "GET") =
    Outcome.handled 12 [(ascii "x", ascii "foo"), (ascii "y", ascii "bar")] := by decide
example : testRouter.serve semDigits (mkReq "/h/foo" "GET") = Outcome.errorResp 404 := by
  decide
example : testRouter.serve semDigits (mkReq "/h/99" "GET") =
    Outcome.handled 13 [(ascii "x", ascii "99")] := by decide
example : testRouter.serve semDigits (mkReq "/h/xx/i" "GET") =
    Outcome.redirect (ascii "/h/xx/i/") := by decide
example : testRouter.serve semDigits (mkReq "/h/xx/i/" "GET") = Outcome.handled 14 [] := by
  decide
example : testRouter.serve semDigits (mkReq "/j/foo/d" "GET") =
    Outcome.redirect (ascii "/j/foo/d/") := by decide
example : testRouter.serve semDigits (mkReq "/j/foo/d/" "GET") =
    Outcome.handled 15 [(ascii "x", ascii "foo")] := by decide
example : testRouter.serve semDigits (mkReq "/kk/foo" "GET") =
    Outcome.handled 16 [(ascii "x", ascii "foo")] := by decide

/-!  Spec-side definitions.  These follow the wording of the specification
(and, for claimCanonicalPath, the wording of one claim) rather than the Go
code, to be compared with the embedded code.  -/

/-- Canonical request path per the specification, amended: empty or a single
slash gives a single slash; otherwise the lexically-cleaned path, with a
trailing separator appended whenever the original path ended in one. -/
def specCanonicalPath (p : GoStr) : GoStr :=
  if p = [] ∨ p = [47] then [47]
  else if p.getLast? = some 47 then goClean p ++ [47] else goClean p

/-- Canonical request path as claimed: the trailing separator is preserved
only if the original path ended in one and the cleaned form does not already
end with one. -/
def claimCanonicalPath (p : GoStr) : GoStr :=
  if p = [] ∨ p = [47] then [47]
  else if p.getLast? = some 47 ∧ (goClean p).getLast? ≠ some 47 then goClean p ++ [47]
  else goClean p

/-- Handler resolution per the specification: exact method name, then, only
when the method is HEAD, the GET handler, then the star wildcard. -/
def specResolve (handlers : List (GoStr × Nat)) (method : GoStr) : Option Nat :=
  match mapLookup handlers method with
  | some h => some h
  | none =>
    match (if method = ascii "HEAD" then mapLookup handlers (ascii "GET") else none) with
    | some h => some h
    | none => mapLookup handlers (ascii "*")

/-- Does every placeholder of the fragment list use the default class (no
explicit regex)? -/
def allDefaultCaps (segs : List Seg) : Bool :=
  segs.all (fun sg =>
    match sg with
    | Seg.cap _ r => r.isNone
    | _ => true)

/-!  Helper lemmas.  -/

theorem mapLookup_mapInsert_self (m : List (GoStr × α)) (k : GoStr) (v : α) :
    mapLookup (mapInsert m k v) k = some v := by
  induction m with
  | nil => simp [mapInsert, mapLookup]
  | cons p rest ih =>
    by_cases h : p.1 = k
    · simp [mapInsert, mapLookup, h]
    · simp [mapInsert, mapLookup, h, ih]

theorem mapLookup_mapInsert_ne (m : List (GoStr × α)) (k k2 : GoStr) (v : α)
    (h : k2 ≠ k) : mapLookup (mapInsert m k2 v) k = mapLookup m k := by
  induction m with
  | nil => simp [mapInsert, mapLookup, h]
  | cons p rest ih =>
    by_cases hp : p.1 = k2
    · simp [mapInsert, mapLookup, hp, h]
    · simp only [mapInsert, hp, if_false, mapLookup]
      by_cases hk : p.1 = k <;> simp [mapLookup, hk, ih]

theorem getLast?_dropLast_append (l : GoStr) (a : Nat) (h : l.getLast? = some a) :
    l.dropLast ++ [a] = l := by
  have h1 : l ≠ [] := by intro he; rw [he] at h; cases h
  have h2 : l.getLast h1 = a := by
    have h3 := List.getLast?_eq_getLast l h1
    rw [h3] at h; exact Option.some_inj.mp h
  rw [← h2]; exact List.dropLast_append_getLast h1

theorem takeWhile_no63 (l : GoStr) (h : 63 ∉ l) :
    l.takeWhile (fun b => b != 63) = l ∧ l.dropWhile (fun b => b != 63) = [] := by
  induction l with
  | nil => simp
  | cons c rest ih =>
    have hc : c ≠ 63 := by intro he; exact h (by rw [he]; exact List.mem_cons_self _ _)
    have hr : 63 ∉ rest := fun hm => h (List.mem_cons_of_mem _ hm)
    have := ih hr
    simp [List.takeWhile_cons, List.dropWhile_cons, hc, this.1, this.2]

theorem takeWhile_append63 (l q : GoStr) (h : 63 ∉ l) :
    (l ++ 63 :: q).takeWhile (fun b => b != 63) = l ∧
    (l ++ 63 :: q).dropWhile (fun b => b != 63) = 63 :: q := by
  induction l with
  | nil => simp [List.takeWhile_cons, List.dropWhile_cons]
  | cons c rest ih =>
    have hc : c ≠ 63 := fun he => h (by rw [he]; exact List.mem_cons_self _ _)
    have hr : 63 ∉ rest := fun hm => h (List.mem_cons_of_mem _ hm)
    have h2 := ih hr
    simp [List.takeWhile_cons, List.dropWhile_cons, hc, h2.1, h2.2]

theorem dropWhile63_head (l : GoStr) :
    l.dropWhile (fun b => b != 63) = [] ∨
      (l.dropWhile (fun b => b != 63)).head? = some 63 := by
  induction l with
  | nil => simp
  | cons c rest ih =>
    by_cases hc : c = 63
    · right; simp [List.dropWhile_cons, hc]
    · simpa [List.dropWhile_cons, hc] using ih

theorem firstSome_eq_some {f : α → Option β} :
    ∀ {l : List α} {b : β}, firstSome f l = some b → ∃ a, a ∈ l ∧ f a = some b := by
  intro l
  induction l with
  | nil => intro b h; simp [firstSome] at h
  | cons a rest ih =>
    intro b h
    rw [firstSome] at h
    cases hfa : f a with
    | some b2 =>
      rw [hfa] at h
      exact ⟨a, List.mem_cons_self _ _, by rw [hfa]; exact h⟩
    | none =>
      rw [hfa] at h
      obtain ⟨a2, hm, he⟩ := ih h
      exact ⟨a2, List.mem_cons_of_mem _ hm, he⟩

theorem scanFirst_eq_none {f : α → Option Caps} :
    ∀ rs : List α, scanFirst f rs = none ↔ ∀ r ∈ rs, f r = none := by
  intro rs
  induction rs with
  | nil => simp [scanFirst]
  | cons r rest ih =>
    rw [scanFirst]
    cases hr : f r with
    | some caps => simp [hr]
    | none => simp [hr, ih]

theorem scanFirst_eq_some {f : α → Option Caps} :
    ∀ (rs : List α) (r : α) (caps : Caps), scanFirst f rs = some (r, caps) →
      ∃ pre post, rs = pre ++ r :: post ∧ (∀ r2 ∈ pre, f r2 = none) ∧ f r = some caps := by
  intro rs
  induction rs with
  | nil => intro r caps h; simp [scanFirst] at h
  | cons r0 rest ih =>
    intro r caps h
    rw [scanFirst] at h
    cases hr : f r0 with
    | some caps0 =>
      rw [hr] at h
      obtain ⟨he1, he2⟩ := Prod.mk.injEq .. ▸ (Option.some_inj.mp h)
      subst he1; subst he2
      exact ⟨[], rest, rfl, by simp, hr⟩
    | none =>
      rw [hr] at h
      obtain ⟨pre, post, hrs, hpre, hf⟩ := ih r caps h
      refine ⟨r0 :: pre, post, by simp [hrs], ?_, hf⟩
      intro r2 hm
      rcases List.mem_cons.mp hm with h2 | h2
      · rw [h2]; exact hr
      · exact hpre r2 h2

theorem decodeParams_err_iff :
    ∀ caps : Caps, decodeParams caps = Except.error () ↔
      ∃ nv ∈ caps, nv.1 ≠ [] ∧ percentDecode nv.2 = DecodeResult.err := by
  intro caps
  induction caps with
  | nil => simp [decodeParams]
  | cons nv rest ih =>
    rw [decodeParams]
    by_cases hn : nv.1.isEmpty
    · have hn2 : nv.1 = [] := by simpa [List.isEmpty_iff] using hn
      rw [if_pos hn]
      cases hr : decodeParams rest with
      | ok t => simp [hr, hn2, ← ih, hr]
      | error e => simp [hr, ← ih, hr, hn2]
    · have hn2 : nv.1 ≠ [] := by simpa [List.isEmpty_iff] using hn
      rw [if_neg hn]
      cases hd : percentDecode nv.2 with
      | err => simp [hd, hn2]
      | ok v2 =>
        cases hr : decodeParams rest with
        | ok t => simp [hd, hr, ← ih, hr, hn2]
        | error e => simp [hd, hr, ← ih, hr]

theorem decodeParams_ok_forall2 :
    ∀ (caps ps : Caps), decodeParams caps = Except.ok ps →
      List.Forall₂ (fun nv nv2 => nv2.1 = nv.1 ∧
        (if nv.1 = [] then nv2.2 = nv.2 else percentDecode nv.2 = DecodeResult.ok nv2.2))
        caps ps := by
  intro caps
  induction caps with
  | nil =>
    intro ps h
    rw [decodeParams] at h
    have h2 : ps = [] := (Except.ok.inj h).symm
    subst h2
    exact List.Forall₂.nil
  | cons nv rest ih =>
    intro ps h
    rw [decodeParams] at h
    by_cases hn : nv.1.isEmpty
    · have hn2 : nv.1 = [] := by simpa [List.isEmpty_iff] using hn
      rw [if_pos hn] at h
      cases hr : decodeParams rest with
      | ok t =>
        rw [hr] at h
        have hps : ps = (nv.1, nv.2) :: t := by
          have := Except.ok.inj h; rw [← this]
        rw [hps]
        exact List.Forall₂.cons (by simp [hn2]) (ih t hr)
      | error e => rw [hr] at h; cases h
    · have hn2 : nv.1 ≠ [] := by simpa [List.isEmpty_iff] using hn
      rw [if_neg hn] at h
      cases hd : percentDecode nv.2 with
      | err => rw [hd] at h; cases h
      | ok v2 =>
        rw [hd] at h
        cases hr : decodeParams rest with
        | ok t =>
          rw [hr] at h
          have hps : ps = (nv.1, v2) :: t := by
            have := Except.ok.inj h; rw [← this]
          rw [hps]
          exact List.Forall₂.cons (by simp [hn2, hd]) (ih t hr)
        | error e => rw [hr] at h; cases h

theorem allDefaultCaps_mem {segs : List Seg} (h : allDefaultCaps segs = true)
    {n : GoStr} {re2 : Option GoStr} (hm : Seg.cap n re2 ∈ segs) : re2 = none := by
  have h2 := List.all_eq_true.mp h _ hm
  simpa [Option.isNone_iff_eq_none] using h2

theorem cap_mem_addOptSlash :
    ∀ (segs : List Seg) (n : GoStr) (re2 : Option GoStr),
      Seg.cap n re2 ∈ addOptSlash segs → Seg.cap n re2 ∈ segs := by
  intro segs
  induction segs with
  | nil => intro n re2 h; simpa [addOptSlash] using h
  | cons a rest ih =>
    intro n re2 h
    cases rest with
    | nil =>
      cases a with
      | lit l =>
        rw [addOptSlash] at h
        by_cases hl : l.getLast? = some 47 <;> simp [hl] at h
      | cap n2 r2 =>
        simpa [addOptSlash] using h
      | optSlash =>
        simpa [addOptSlash] using h
    | cons b rest2 =>
      have he : addOptSlash (a :: b :: rest2) = a :: addOptSlash (b :: rest2) := rfl
      rw [he] at h
      rcases List.mem_cons.mp h with h2 | h2
      · rw [← h2]; exact List.mem_cons_self _ _
      · exact List.mem_cons_of_mem _ (ih n re2 h2)

/-- Any successful match of a fragment list whose placeholders all use the
default class yields only nonempty, separator-free capture values. -/
theorem segsMatch_default_caps (sem : RegexSem) (sep : Nat) :
    ∀ (segs : List Seg) (s : GoStr) (caps : Caps),
      (∀ n re2, Seg.cap n re2 ∈ segs → re2 = none) →
      segsMatch sem sep segs s = some caps →
      ∀ nv ∈ caps, nv.2 ≠ [] ∧ ∀ b ∈ nv.2, b ≠ sep := by
  intro segs
  induction segs with
  | nil =>
    intro s caps _ h nv hm
    rw [segsMatch] at h
    by_cases hs : s.isEmpty
    · rw [if_pos hs] at h
      have hc : caps = [] := (Option.some_inj.mp h).symm
      subst hc; cases hm
    · rw [if_neg hs] at h; cases h
  | cons seg rest ih =>
    intro s caps hdef h
    have hdef2 : ∀ n re2, Seg.cap n re2 ∈ rest → re2 = none :=
      fun n re2 hm => hdef n re2 (List.mem_cons_of_mem _ hm)
    cases seg with
    | lit l =>
      rw [segsMatch] at h
      by_cases hp : l = s.take l.length
      · rw [if_pos hp] at h
        exact ih (s.drop l.length) caps hdef2 h
      · rw [if_neg hp] at h; cases h
    | optSlash =>
      cases s with
      | nil =>
        rw [segsMatch] at h
        exact ih [] caps hdef2 h
      | cons c s2 =>
        rw [segsMatch] at h
        by_cases hc : c = 47
        · rw [if_pos hc] at h
          cases h2 : segsMatch sem sep rest s2 with
          | some caps2 =>
            rw [h2] at h
            have hc2 : caps2 = caps := Option.some_inj.mp h
            rw [← hc2]
            exact ih s2 caps2 hdef2 h2
          | none =>
            rw [h2] at h
            exact ih (c :: s2) caps hdef2 h
        · rw [if_neg hc] at h
          exact ih (c :: s2) caps hdef2 h
    | cap name re2 =>
      have hre : re2 = none := hdef name re2 (List.mem_cons_self _ _)
      subst hre
      rw [segsMatch] at h
      obtain ⟨k, _, hfk⟩ := firstSome_eq_some h
      dsimp only at hfk
      by_cases hcap : capOK sem sep none (s.take k) = true
      · rw [if_pos hcap] at hfk
        cases hrec : segsMatch sem sep rest (s.drop k) with
        | none => rw [hrec] at hfk; cases hfk
        | some caps2 =>
          rw [hrec] at hfk
          have hcaps := Option.some_inj.mp hfk
          have hv : s.take k ≠ [] ∧ ∀ b ∈ s.take k, b ≠ sep := by
            simpa [capOK, List.all_eq_true, List.isEmpty_iff] using hcap
          intro nv hm
          rw [← hcaps] at hm
          by_cases hn : name.isEmpty
          · rw [if_pos hn] at hm
            exact ih (s.drop k) caps2 hdef2 hrec nv hm
          · rw [if_neg hn] at hm
            rcases List.mem_cons.mp hm with h2 | h2
            · rw [h2]; exact hv
            · exact ih (s.drop k) caps2 hdef2 hrec nv h2
      · rw [if_neg hcap] at hfk; cases hfk

/-!  Claim theorems.  -/

/-- C5: percent-decoding returns the input unchanged when it contains no
percent byte; otherwise it copies literal bytes and converts each percent
triple whose two following bytes are hex digits in 0-9, a-f or A-F into the
single byte with that hex value; a percent byte not followed by two hex
digits, including a percent byte within two bytes of the end of the string,
makes decoding fail with an error. -/
theorem percentDecode_spec :
    (∀ s : GoStr, 37 ∉ s → percentDecode s = DecodeResult.ok s)
    ∧ (∀ s : GoStr, 37 ∈ s → percentDecode s = percentDecodeLoop s)
    ∧ (∀ b : Nat, dehex b ≠ notHex ↔
        ((48 ≤ b ∧ b ≤ 57) ∨ (97 ≤ b ∧ b ≤ 102) ∨ (65 ≤ b ∧ b ≤ 70)))
    ∧ (∀ (c : Nat) (rest : GoStr), c ≠ 37 →
        percentDecodeLoop (c :: rest) =
          (match percentDecodeLoop rest with
           | DecodeResult.ok t => DecodeResult.ok (c :: t)
           | DecodeResult.err => DecodeResult.err))
    ∧ (∀ (a b : Nat) (rest : GoStr), dehex a ≠ notHex → dehex b ≠ notHex →
        percentDecodeLoop (37 :: a :: b :: rest) =
          (match percentDecodeLoop rest with
           | DecodeResult.ok t => DecodeResult.ok ((dehex a * 16 + dehex b) :: t)
           | DecodeResult.err => DecodeResult.err))
    ∧ (∀ (a b : Nat) (rest : GoStr), dehex a = notHex ∨ dehex b = notHex →
        percentDecodeLoop (37 :: a :: b :: rest) = DecodeResult.err)
    ∧ (percentDecodeLoop [37] = DecodeResult.err
        ∧ ∀ a : Nat, percentDecodeLoop [37, a] = DecodeResult.err) := by
  refine ⟨?_, ?_, ?_, ?_, ?_, ?_, by decide, ?_⟩
  · intro s h; simp [percentDecode, h]
  · intro s h; simp [percentDecode, h]
  · intro b
    simp only [dehex, notHex]
    split <;> (try split) <;> (try split) <;> omega
  · intro c rest h
    cases rest with
    | nil =>
      have he : percentDecodeLoop [c] =
          if c = 37 then DecodeResult.err
          else
            (match percentDecodeLoop [] with
             | DecodeResult.ok t => DecodeResult.ok (c :: t)
             | DecodeResult.err => DecodeResult.err) := rfl
      rw [he, if_neg h]
    | cons a rest2 =>
      cases rest2 with
      | nil =>
        have he : percentDecodeLoop [c, a] =
            if c = 37 then DecodeResult.err
            else
              (match percentDecodeLoop [a] with
               | DecodeResult.ok t => DecodeResult.ok (c :: t)
               | DecodeResult.err => DecodeResult.err) := rfl
        rw [he, if_neg h]
      | cons b rest3 =>
        have he : percentDecodeLoop (c :: a :: b :: rest3) =
            if c = 37 then
              (if dehex a = notHex ∨ dehex b = notHex then DecodeResult.err
               else
                 (match percentDecodeLoop rest3 with
                  | DecodeResult.ok t => DecodeResult.ok ((dehex a * 16 + dehex b) :: t)
                  | DecodeResult.err => DecodeResult.err))
            else
              (match percentDecodeLoop (a :: b :: rest3) with
               | DecodeResult.ok t => DecodeResult.ok (c :: t)
               | DecodeResult.err => DecodeResult.err) := rfl
        rw [he, if_neg h]
  · intro a b rest h1 h2
    have he : percentDecodeLoop (37 :: a :: b :: rest) =
        if dehex a = notHex ∨ dehex b = notHex then DecodeResult.err
        else
          (match percentDecodeLoop rest with
           | DecodeResult.ok t => DecodeResult.ok ((dehex a * 16 + dehex b) :: t)
           | DecodeResult.err => DecodeResult.err) := rfl
    rw [he, if_neg (not_or.mpr ⟨h1, h2⟩)]
  · intro a b rest h
    have he : percentDecodeLoop (37 :: a :: b :: rest) =
        if dehex a = notHex ∨ dehex b = notHex then DecodeResult.err
        else
          (match percentDecodeLoop rest with
           | DecodeResult.ok t => DecodeResult.ok ((dehex a * 16 + dehex b) :: t)
           | DecodeResult.err => DecodeResult.err) := rfl
    rw [he, if_pos h]
  · intro a
    exact rfl

/-- C5 witness: the theorem applied at concrete inputs, matching the test
vectors of router_test.go. -/
theorem percentDecode_spec_witness :
    percentDecode (ascii "abc") = DecodeResult.ok (ascii "abc")
    ∧ percentDecodeLoop (ascii "%2f") = DecodeResult.ok [47]
    ∧ percentDecodeLoop (ascii "%2x") = DecodeResult.err
    ∧ percentDecodeLoop (ascii "a%2") = DecodeResult.err := by
  refine ⟨percentDecode_spec.1 (ascii "abc") (by decide), ?_, ?_, ?_⟩
  · have h := percentDecode_spec.2.2.2.2.1 50 102 [] (by decide) (by decide)
    rw [show ascii "%2f" = [37, 50, 102] from by decide, h]
    decide
  · exact percentDecode_spec.2.2.2.2.2.1 50 120 [] (by decide)
  · have h := percentDecode_spec.2.2.2.1 97 [37, 50] (by decide)
    rw [show ascii "a%2" = 97 :: [37, 50] from by decide, h]
    decide

/-- C7: registering a literal (placeholder-free) path pattern that findRoute
already resolves against an existing compiled route panics, and the literal
route is not added (the add call produces no updated router). -/
theorem add_literal_collision (sem : RegexSem) (router : Router) (pat : GoStr)
    (handlers : List (GoStr × Nat))
    (hpat : ¬(pat = [] ∨ pat.head? ≠ some 47))
    (hlit : compilePattern pat (decide (pat ≠ [47] ∧ pat.getLast? = some 47)) 47 = none)
    (hcol : (router.findRoute sem pat).isSome = true) :
    Router.add sem router pat handlers = AddResult.fail := by
  have hlit2 : compilePattern pat
      (!decide (pat = [47]) && decide (pat.getLast? = some 47)) 47 = none := by
    simpa [Bool.decide_and, decide_not] using hlit
  simp [Router.add, hpat, hlit2, hcol]

/-- C7 witness: a router holding the compiled route for a placeholder
pattern rejects the literal pattern it matches. -/
theorem add_literal_collision_witness :
    Router.add semDigits
      { simpleMatch := [],
        routes := [{ pat := ascii "/f/<x>", addSlash := false,
                     cpat := compilePattern (ascii "/f/<x>") false 47, handlers := [] }],
        useURLPath := false }
      (ascii "/f/a") [(ascii "GET", 1)] = AddResult.fail :=
  add_literal_collision semDigits _ _ _ (by decide) (by decide) (by decide)

/-- C8 counterexample: the claim has the asymmetry backwards.  Adding the
literal /a/b and then the colliding placeholder pattern /a/<x> succeeds
(the claim says this ordering is detected as a fatal error), while adding
/a/<x> first and then the literal /a/b panics (the claim says this ordering
is not re-validated and succeeds). -/
theorem c8_counterexample :
    (tryAdd semDigits (tryAdd semDigits (some Router.new) "/a/b" []) "/a/<x>" []).isSome
      = true
    ∧ tryAdd semDigits (tryAdd semDigits (some Router.new) "/a/<x>" []) "/a/b" []
      = none := by decide

/-- C8 amended: ambiguity detection is registration-order dependent, in this
direction: a route with a placeholder is appended with no collision check at
all, so a compiled route added after a colliding literal registers
successfully; a literal route added after a colliding compiled route is
detected and panics. -/
theorem add_order_dependent_ambiguity :
    (∀ (sem : RegexSem) (router : Router) (pat : GoStr)
       (handlers : List (GoStr × Nat)) (cp : CompiledPat),
       ¬(pat = [] ∨ pat.head? ≠ some 47) →
       compilePattern pat (decide (pat ≠ [47] ∧ pat.getLast? = some 47)) 47 = some cp →
       Router.add sem router pat handlers =
         AddResult.ok { router with routes := router.routes ++
           [{ pat := pat, addSlash := decide (pat ≠ [47] ∧ pat.getLast? = some 47),
              cpat := some cp, handlers := handlers }] })
    ∧ (∀ (sem : RegexSem) (router : Router) (pat : GoStr)
         (handlers : List (GoStr × Nat)),
       ¬(pat = [] ∨ pat.head? ≠ some 47) →
       compilePattern pat (decide (pat ≠ [47] ∧ pat.getLast? = some 47)) 47 = none →
       (router.findRoute sem pat).isSome = true →
       Router.add sem router pat handlers = AddResult.fail) := by
  constructor
  · intro sem router pat handlers cp h1 h2
    have h2b : compilePattern pat
        (!decide (pat = [47]) && decide (pat.getLast? = some 47)) 47 = some cp := by
      simpa [Bool.decide_and, decide_not] using h2
    simp [Router.add, h1, h2b]
  · intro sem router pat handlers h1 h2 h3
    have h2b : compilePattern pat
        (!decide (pat = [47]) && decide (pat.getLast? = some 47)) 47 = none := by
      simpa [Bool.decide_and, decide_not] using h2
    simp [Router.add, h1, h2b, h3]

/-- C8 amended witness: a router already holding the literal /a/b accepts the
colliding placeholder pattern /a/<x> with no check. -/
theorem add_order_dependent_ambiguity_witness :
    Router.add semDigits
      { simpleMatch := [(ascii "/a/b",
          { pat := ascii "/a/b", addSlash := false, cpat := none, handlers := [] })],
        routes := [], useURLPath := false }
      (ascii "/a/<x>") [] =
    AddResult.ok
      { simpleMatch := [(ascii "/a/b",
          { pat := ascii "/a/b", addSlash := false, cpat := none, handlers := [] })],
        routes := [{ pat := ascii "/a/<x>", addSlash := false,
                     cpat := some ({ segs := [Seg.lit (ascii "/a/"),
                                              Seg.cap (ascii "x") none, Seg.lit []],
                                     addSlash := false, sep := 47 } : CompiledPat),
                     handlers := [] }],
        useURLPath := false } := by
  have h := add_order_dependent_ambiguity.1 semDigits
    { simpleMatch := [(ascii "/a/b",
        { pat := ascii "/a/b", addSlash := false, cpat := none, handlers := [] })],
      routes := [], useURLPath := false }
    (ascii "/a/<x>") []
    { segs := [Seg.lit (ascii "/a/"), Seg.cap (ascii "x") none, Seg.lit []],
      addSlash := false, sep := 47 }
    (by decide) (by decide)
  rw [h]
  decide

/-- C9: for a pattern whose placeholders all use the default class (no
explicit regex), the compiled expression is anchored at both ends (the
matcher only accepts when the whole candidate is consumed, by construction)
and every placeholder matches one or more bytes excluding the separator:
whenever a candidate matches, every captured value is nonempty and free of
the separator byte, so no candidate whose placeholder portion would contain
the separator matches the route. -/
theorem default_placeholder_sep_free (sem : RegexSem) (pat : GoStr) (addSlash : Bool)
    (sep : Nat) (cp : CompiledPat) (s : GoStr) (caps : Caps)
    (hcomp : compilePattern pat addSlash sep = some cp)
    (hdef : allDefaultCaps cp.segs = true)
    (hfind : cp.find sem s = some caps) :
    ∀ nv ∈ caps, nv.2 ≠ [] ∧ ∀ b ∈ nv.2, b ≠ sep := by
  have hsep : cp.sep = sep := by
    unfold compilePattern at hcomp
    cases hfp : findParam pat with
    | none => rw [hfp] at hcomp; cases hcomp
    | some x =>
      rw [hfp] at hcomp
      have h2 := Option.some_inj.mp hcomp
      rw [← h2]
  simp only [CompiledPat.find] at hfind
  rw [hsep] at hfind
  by_cases hs : cp.addSlash = true
  · rw [if_pos hs] at hfind
    exact segsMatch_default_caps sem sep (addOptSlash cp.segs) s caps
      (fun n re2 hm => allDefaultCaps_mem hdef (cap_mem_addOptSlash _ n re2 hm)) hfind
  · rw [if_neg hs] at hfind
    exact segsMatch_default_caps sem sep cp.segs s caps
      (fun n re2 hm => allDefaultCaps_mem hdef hm) hfind

/-- C9 witness: the compiled pattern /f/<x> on the matching candidate /f/ab
has the nonempty, slash-free capture ab. -/
theorem default_placeholder_sep_free_witness :
    ascii "ab" ≠ [] ∧ ∀ b ∈ ascii "ab", b ≠ 47 :=
  default_placeholder_sep_free semDigits (ascii "/f/<x>") false 47
    { segs := [Seg.lit (ascii "/f/"), Seg.cap (ascii "x") none, Seg.lit []],
      addSlash := false, sep := 47 }
    (ascii "/f/ab") [(ascii "x", ascii "ab")]
    (by decide) (by decide) (by decide)
    (ascii "x", ascii "ab") (by decide)

/-- C10: an angle-bracket fragment whose name has a byte outside the word
class (such as /x/<na-me>) is not matched by the placeholder syntax;
compilation raises no configuration error and treats it as literal text: a
pattern with no well-formed placeholder compiles to none and registers as a
literal route that matches the angle-bracket text verbatim. -/
theorem malformed_placeholder_literal :
    (findParam (ascii "/x/<na-me>") = none
      ∧ compilePattern (ascii "/x/<na-me>") false 47 = none)
    ∧ (∀ (pat : GoStr) (a : Bool) (sep : Nat), findParam pat = none →
        compilePattern pat a sep = none)
    ∧ ((tryAdd semDigits (some Router.new) "/x/<na-me>" [(ascii "GET", 1)]).map
        (fun r => r.findRoute semDigits (ascii "/x/<na-me>")) =
       some (some ({ pat := ascii "/x/<na-me>", addSlash := false, cpat := none,
                     handlers := [(ascii "GET", 1)] }, []))) := by
  refine ⟨by decide, ?_, by decide⟩
  intro pat a sep h
  simp [compilePattern, h]

/-- C10 witness: the general part of the theorem applied at a concrete
placeholder-free pattern. -/
theorem malformed_placeholder_literal_witness :
    compilePattern (ascii "/plain") false 47 = none :=
  malformed_placeholder_literal.2.1 (ascii "/plain") false 47 (by decide)

/-- C2: for a matched route that does not trigger the trailing-slash
redirect, handler resolution tries the exact method, then the GET handler
only when the method is HEAD, then the star wildcard; when all fail the
result is the closure invoking the error callback with 405 (and dispatch of
that closure produces the 405 error response), so no registered handler
runs. -/
theorem findHandler_method_fallback :
    (∀ (sem : RegexSem) (router : Router) (path method : GoStr)
       (route : Route) (caps : Caps),
       router.findRoute sem path = some (route, caps) →
       ¬(route.addSlash = true ∧ path.getLast? ≠ some 47) →
       router.findHandler sem path method =
         (match specResolve route.handlers method with
          | some h => (FoundHandler.user h, caps)
          | none => (FoundHandler.methodNotAllowed, [])))
    ∧ (∀ (req : Request) (b : Bool),
        dispatchFound (FoundHandler.methodNotAllowed, []) req b = Outcome.errorResp 405) := by
  constructor
  · intro sem router path method route caps hfind hslash
    rw [Router.findHandler, hfind]
    simp only [if_neg hslash]
    by_cases hm : method = ascii "HEAD"
    · subst hm
      cases h0 : mapLookup route.handlers (ascii "HEAD") with
      | some h => simp [specResolve, h0]
      | none =>
        cases h1 : mapLookup route.handlers (ascii "GET") with
        | some h => simp [specResolve, h0, h1]
        | none =>
          cases h2 : mapLookup route.handlers (ascii "*") with
          | some h => simp [specResolve, h0, h1, h2]
          | none => simp [specResolve, h0, h1, h2]
    · cases h0 : mapLookup route.handlers method with
      | some h => simp [specResolve, h0]
      | none =>
        cases h2 : mapLookup route.handlers (ascii "*") with
        | some h => simp [specResolve, h0, h2, hm]
        | none => simp [specResolve, h0, h2, hm]
  · intro req b
    rfl

/-- C2 witness: on the TestRouter table, a POST to the route /a (handlers
for GET and the wildcard) resolves to the wildcard handler, and a HEAD to
the route / (GET handler only) resolves to the GET handler. -/
theorem findHandler_method_fallback_witness :
    testRouter.findHandler semDigits (ascii "/a") (ascii "POST") = (FoundHandler.user 3, [])
    ∧ testRouter.findHandler semDigits (ascii "/") (ascii "HEAD") =
        (FoundHandler.user 1, []) := by
  constructor
  · have h := findHandler_method_fallback.1 semDigits testRouter (ascii "/a") (ascii "POST")
      ({ pat := ascii "/a", addSlash := false, cpat := none,
         handlers := [(ascii "GET", 2), (ascii "*", 3)] } : Route) []
      (by decide) (by decide)
    rw [h]; decide
  · have h := findHandler_method_fallback.1 semDigits testRouter (ascii "/") (ascii "HEAD")
      ({ pat := ascii "/", addSlash := false, cpat := none,
         handlers := [(ascii "GET", 1)] } : Route) []
      (by decide) (by decide)
    rw [h]; decide

/-- C3: for both routers, a candidate present in the literal map selects that
literal route with no regex consulted, regardless of registration order;
otherwise the compiled routes are scanned in registration order and the
first match is selected; when nothing matches no route is selected, and for
the path router the dispatch then produces the 404 closure. -/
theorem findRoute_literal_precedence :
    (∀ (sem : RegexSem) (router : Router) (path : GoStr) (r : Route),
       mapLookup router.simpleMatch path = some r →
       router.findRoute sem path = some (r, []))
    ∧ (∀ (sem : RegexSem) (router : Router) (path : GoStr),
       mapLookup router.simpleMatch path = none →
       router.findRoute sem path = scanFirst (fun r2 => r2.find sem path) router.routes)
    ∧ (∀ (α : Type) (f : α → Option Caps) (rs : List α) (r : α) (caps : Caps),
       scanFirst f rs = some (r, caps) →
       ∃ pre post, rs = pre ++ r :: post ∧ (∀ r2 ∈ pre, f r2 = none) ∧ f r = some caps)
    ∧ (∀ (α : Type) (f : α → Option Caps) (rs : List α),
       scanFirst f rs = none ↔ ∀ r ∈ rs, f r = none)
    ∧ (∀ (sem : RegexSem) (router : Router) (path method : GoStr),
       router.findRoute sem path = none →
       router.findHandler sem path method = (FoundHandler.notFound, []))
    ∧ (∀ (sem : RegexSem) (hrouter : HostRouter) (host : GoStr) (r : HostRoute),
       mapLookup hrouter.simpleMatch host = some r →
       hrouter.findRoute sem host = some (r, []))
    ∧ (∀ (sem : RegexSem) (hrouter : HostRouter) (host : GoStr),
       mapLookup hrouter.simpleMatch host = none →
       hrouter.findRoute sem host = scanFirst (fun r2 => r2.find sem host) hrouter.routes) := by
  refine ⟨?_, ?_, ?_, ?_, ?_, ?_, ?_⟩
  · intro sem router path r h
    rw [Router.findRoute, h]
  · intro sem router path h
    rw [Router.findRoute, h]
  · intro α f rs r caps h
    exact scanFirst_eq_some rs r caps h
  · intro α f rs
    exact scanFirst_eq_none rs
  · intro sem router path method h
    rw [Router.findHandler, h]
  · intro sem hrouter host r h
    rw [HostRouter.findRoute, h]
  · intro sem hrouter host h
    rw [HostRouter.findRoute, h]

/-- C3 witness: on the TestRouter table, the literal /e is selected from the
map, and a host router built from the TestHostRouter table selects the first
matching compiled route for an unmatched host. -/
theorem findRoute_literal_precedence_witness :
    testRouter.findRoute semDigits (ascii "/e") =
      some ({ pat := ascii "/e", addSlash := false, cpat := none,
              handlers := [(ascii "GET", 8)] }, [])
    ∧ scanFirst (fun r2 : Route => r2.find semDigits (ascii "/h/7"))
        testRouter.routes =
      some ({ pat := ascii "/h/<x:[0-9]+>", addSlash := false,
              cpat := compilePattern (ascii "/h/<x:[0-9]+>") false 47,
              handlers := [(ascii "GET", 13)] }, [(ascii "x", ascii "7")]) := by
  constructor
  · exact findRoute_literal_precedence.1 semDigits testRouter (ascii "/e") _ (by decide)
  · have h := findRoute_literal_precedence.2.1 semDigits testRouter (ascii "/h/7")
      (by decide)
    rw [← h]
    decide

/-- C1 counterexample: the claim preserves the trailing separator only when
the cleaned form does not already end in one, so it gives canonical path /
for the request-target // (and for /a/../) and predicts a 301 redirect to /.
The code appends the separator unconditionally: for // the canonical path is
// itself, so no redirect happens at all (the dispatch falls through to the
404 callback), and /a/../ is redirected to //, not to /. -/
theorem c1_counterexample :
    claimCanonicalPath (ascii "//") = ascii "/"
    ∧ claimCanonicalPath (ascii "//") ≠ ascii "//"
    ∧ Router.serve semDigits Router.new
        { requestURI := ascii "//", urlPath := ascii "//", rawQuery := [],
          method := ascii "GET" } = Outcome.errorResp 404
    ∧ claimCanonicalPath (ascii "/a/../") = ascii "/"
    ∧ Router.serve semDigits Router.new
        { requestURI := ascii "/a/../", urlPath := ascii "/a/../", rawQuery := [],
          method := ascii "GET" } = Outcome.redirect (ascii "//") := by
  decide

/-- C1 amended: in default mode the request-target is split at the first
question mark; an empty path or a single slash normalizes to the canonical
path /; any other path normalizes to its lexically-cleaned form with a
trailing separator appended whenever the original path ended in one
(unconditionally, even when the cleaned form is the single slash); whenever
the canonical path differs from the original the router responds with a 301
redirect to the canonical path plus the original query string and invokes no
handler, and otherwise dispatch proceeds on the unchanged path. -/
theorem serve_canonical_redirect (sem : RegexSem) (router : Router) (req : Request)
    (huse : router.useURLPath = false) :
    (specCanonicalPath [] = [47] ∧ specCanonicalPath [47] = [47])
    ∧ (req.requestURI.takeWhile (fun b => b != 63) ++
        req.requestURI.dropWhile (fun b => b != 63) = req.requestURI)
    ∧ (∀ b ∈ req.requestURI.takeWhile (fun b2 => b2 != 63), b ≠ 63)
    ∧ (req.requestURI.dropWhile (fun b => b != 63) = [] ∨
        (req.requestURI.dropWhile (fun b => b != 63)).head? = some 63)
    ∧ (specCanonicalPath (req.requestURI.takeWhile (fun b => b != 63)) ≠
         req.requestURI.takeWhile (fun b => b != 63) →
       router.serve sem req = Outcome.redirect
         (specCanonicalPath (req.requestURI.takeWhile (fun b => b != 63)) ++
          req.requestURI.dropWhile (fun b => b != 63)))
    ∧ (specCanonicalPath (req.requestURI.takeWhile (fun b => b != 63)) =
         req.requestURI.takeWhile (fun b => b != 63) →
       router.serve sem req =
         dispatchFound
           (router.findHandler sem (req.requestURI.takeWhile (fun b => b != 63))
             req.method)
           req true) := by
  have hspec : ∀ p : GoStr, specCanonicalPath p = cleanRequestPath p := fun p => rfl
  refine ⟨⟨by decide, by decide⟩, List.takeWhile_append_dropWhile _ _, ?_,
    dropWhile63_head _, ?_, ?_⟩
  · intro b hb
    have h2 := List.mem_takeWhile_imp hb
    simpa using h2
  · intro hne
    rw [hspec] at hne ⊢
    simp only [Router.serve, huse, Bool.false_eq_true, if_false]
    rw [if_pos (Ne.symm hne)]
  · intro heq
    rw [hspec] at heq
    simp only [Router.serve, huse, Bool.false_eq_true, if_false]
    rw [if_neg (fun hn => hn heq.symm)]

/-- C1 amended witness: a request-target with dot-dot segments and a query
string is redirected to its cleaned path with the query preserved. -/
theorem serve_canonical_redirect_witness :
    Router.serve semDigits Router.new
      { requestURI := ascii "/a/../b?x=1", urlPath := ascii "/b",
        rawQuery := ascii "x=1", method := ascii "GET" } =
      Outcome.redirect (ascii "/b?x=1") := by
  have h := (serve_canonical_redirect semDigits Router.new
    { requestURI := ascii "/a/../b?x=1", urlPath := ascii "/b",
      rawQuery := ascii "x=1", method := ascii "GET" } rfl).2.2.2.2.1 (by decide)
  rw [h]
  decide

/-- C6: in default mode, after a route is matched and a user handler
resolved, every named capture value is percent-decoded; when decoding of any
named captured value fails the error callback is invoked with status 400 and
the resolved handler is never invoked, and when all decode the handler runs
with the decoded values. -/
theorem serve_decode_params (sem : RegexSem) (router : Router) (req : Request)
    (h : Nat) (caps : Caps)
    (huse : router.useURLPath = false)
    (hq : 63 ∉ req.requestURI)
    (hcanon : cleanRequestPath req.requestURI = req.requestURI)
    (hfh : router.findHandler sem req.requestURI req.method = (FoundHandler.user h, caps)) :
    (decodeParams caps = Except.error () → router.serve sem req = Outcome.errorResp 400)
    ∧ (∀ ps, decodeParams caps = Except.ok ps →
        router.serve sem req = Outcome.handled h ps)
    ∧ (decodeParams caps = Except.error () ↔
        ∃ nv ∈ caps, nv.1 ≠ [] ∧ percentDecode nv.2 = DecodeResult.err)
    ∧ (∀ ps, decodeParams caps = Except.ok ps →
        List.Forall₂ (fun nv nv2 => nv2.1 = nv.1 ∧
          (if nv.1 = [] then nv2.2 = nv.2
           else percentDecode nv.2 = DecodeResult.ok nv2.2)) caps ps) := by
  have htw := takeWhile_no63 req.requestURI hq
  have hserve : router.serve sem req =
      dispatchFound (router.findHandler sem req.requestURI req.method) req true := by
    simp only [Router.serve, huse, Bool.false_eq_true, if_false, htw.1, htw.2]
    rw [if_neg (fun hn => hn hcanon.symm)]
  refine ⟨?_, ?_, decodeParams_err_iff caps, fun ps hp => decodeParams_ok_forall2 caps ps hp⟩
  · intro herr
    rw [hserve, hfh]
    simp [dispatchFound, herr]
  · intro ps hok
    rw [hserve, hfh]
    simp [dispatchFound, hok]

/-- The single-route router used by the C6 witness. -/
def c6Router : Router :=
  { simpleMatch := [],
    routes := [{ pat := ascii "/f/<x>", addSlash := false,
                 cpat := compilePattern (ascii "/f/<x>") false 47,
                 handlers := [(ascii "GET", 10)] }],
    useURLPath := false }

/-- C6 witness: a capture with a truncated percent escape makes the dispatch
answer 400 through the callback instead of running the resolved handler. -/
theorem serve_decode_params_witness :
    c6Router.serve semDigits
      { requestURI := ascii "/f/a%2", urlPath := ascii "/f/a%2", rawQuery := [],
        method := ascii "GET" } = Outcome.errorResp 400 :=
  (serve_decode_params semDigits c6Router
    { requestURI := ascii "/f/a%2", urlPath := ascii "/f/a%2", rawQuery := [],
      method := ascii "GET" } 10 [(ascii "x", ascii "a%2")]
    rfl (by decide) (by decide) (by decide)).1 (by rfl)

/-- C4: a placeholder-free path pattern declared with a trailing slash
registers as a literal route stored under both the slashed key and, only
when findRoute does not already resolve the slash-less form, the slash-less
key; a request for the slash-less form then receives a 301 redirect
appending the slash plus any query string, and a request for the slashed
form dispatches to the route handler for its method. -/
theorem trailing_slash_literal_route (sem : RegexSem) (router : Router) (pat : GoStr)
    (handlers : List (GoStr × Nat)) (hid : Nat) (method q : GoStr)
    (route : Route) (router1 router2 : Router)
    (hhead : pat.head? = some 47)
    (hone : pat ≠ [47])
    (hlast : pat.getLast? = some 47)
    (hlit : compilePattern pat true 47 = none)
    (hnocol : router.findRoute sem pat = none)
    (huse : router.useURLPath = false)
    (hroute : route = { pat := pat, addSlash := true, cpat := none, handlers := handlers })
    (hrouter1 : router1 =
      { router with simpleMatch := mapInsert router.simpleMatch pat route })
    (hrouter2 : router2 =
      { router1 with simpleMatch := mapInsert router1.simpleMatch pat.dropLast route }) :
    ((router1.findRoute sem pat.dropLast = none →
        Router.add sem router pat handlers = AddResult.ok router2)
      ∧ ((router1.findRoute sem pat.dropLast).isSome = true →
        Router.add sem router pat handlers = AddResult.ok router1)
      ∧ mapLookup router2.simpleMatch pat = some route
      ∧ mapLookup router2.simpleMatch pat.dropLast = some route)
    ∧ (pat.dropLast.getLast? ≠ some 47 →
        router2.findHandler sem pat.dropLast method = (FoundHandler.addSlash, []))
    ∧ (pat.dropLast.getLast? ≠ some 47 → 63 ∉ pat.dropLast →
        pat.dropLast ≠ [] → pat.dropLast ≠ [47] →
        goClean pat.dropLast = pat.dropLast →
        router2.serve sem
          { requestURI := pat.dropLast ++ 63 :: q, urlPath := pat.dropLast,
            rawQuery := q, method := method } =
          Outcome.redirect (pat.dropLast ++ [47] ++ (if q.isEmpty then [] else 63 :: q)))
    ∧ (63 ∉ pat → goClean pat = pat.dropLast →
        mapLookup handlers method = some hid →
        router2.serve sem
          { requestURI := pat, urlPath := pat, rawQuery := [], method := method } =
          Outcome.handled hid []) := by
  have hpe : pat ≠ [] := by
    intro he; rw [he] at hhead; cases hhead
  have hne : ¬(pat = [] ∨ pat.head? ≠ some 47) :=
    not_or.mpr ⟨hpe, fun hx => hx hhead⟩
  have hb : (!decide (pat = [47]) && decide (pat.getLast? = some 47)) = true := by
    simp [hone, hlast]
  have hlen : pat.dropLast ≠ pat := by
    intro he
    have h2 := congrArg List.length he
    have h3 : 0 < pat.length := List.length_pos.mpr hpe
    rw [List.length_dropLast] at h2
    omega
  have hsm2 : router2.simpleMatch = mapInsert router1.simpleMatch pat.dropLast route := by
    rw [hrouter2]
  have hsm1 : router1.simpleMatch = mapInsert router.simpleMatch pat route := by
    rw [hrouter1]
  have huse2 : router2.useURLPath = false := by
    rw [hrouter2, hrouter1]; exact huse
  have hlookup_pat : mapLookup router2.simpleMatch pat = some route := by
    rw [hsm2, mapLookup_mapInsert_ne _ _ _ _ hlen, hsm1, mapLookup_mapInsert_self]
  have hlookup_pat2 : mapLookup router2.simpleMatch pat.dropLast = some route := by
    rw [hsm2, mapLookup_mapInsert_self]
  have hfr2 : router2.findRoute sem pat.dropLast = some (route, []) := by
    rw [Router.findRoute, hlookup_pat2]
  have hfrp : router2.findRoute sem pat = some (route, []) := by
    rw [Router.findRoute, hlookup_pat]
  have haddSlash : route.addSlash = true := by rw [hroute]
  have hhandlers : route.handlers = handlers := by rw [hroute]
  have hfhgen : pat.dropLast.getLast? ≠ some 47 →
      router2.findHandler sem pat.dropLast method = (FoundHandler.addSlash, []) := by
    intro hlast2
    rw [Router.findHandler, hfr2]
    dsimp only
    rw [if_pos ⟨haddSlash, hlast2⟩]
  refine ⟨⟨?_, ?_, hlookup_pat, hlookup_pat2⟩, hfhgen, ?_, ?_⟩
  · intro h6
    rw [hrouter1, hroute] at h6
    simp [Router.add, hne, hb, hlit, hnocol, h6, hrouter2, hrouter1, hroute]
  · intro h6
    rw [hrouter1, hroute] at h6
    simp [Router.add, hne, hb, hlit, hnocol, h6, hrouter1, hroute]
  · intro hlast2 h63 hne1 hne2 hclean
    have ht := takeWhile_append63 pat.dropLast q h63
    have hcp : cleanRequestPath pat.dropLast = pat.dropLast := by
      simp [cleanRequestPath, hne1, hne2, hlast2, hclean]
    simp only [Router.serve, huse2, Bool.false_eq_true, if_false, ht.1, ht.2, hcp]
    rw [if_neg (fun hn => hn rfl)]
    rw [dispatchFound, hfhgen hlast2]
  · intro h63p hcleanp hmeth
    have htp := takeWhile_no63 pat h63p
    have hcp : cleanRequestPath pat = pat := by
      rw [cleanRequestPath, if_neg (not_or.mpr ⟨hpe, hone⟩)]
      rw [if_pos hlast, hcleanp]
      exact getLast?_dropLast_append pat 47 hlast
    simp only [Router.serve, huse2, Bool.false_eq_true, if_false, htp.1, htp.2, hcp]
    rw [if_neg (fun hn => hn rfl)]
    rw [dispatchFound, Router.findHandler, hfrp]
    dsimp only
    rw [if_neg (fun hx => hx.2 hlast)]
    simp [hmeth, hhandlers, decodeParams]

/-- The literal route registered by the C4 witness (the pattern /d/ of the
test table). -/
def routeD : Route :=
  { pat := ascii "/d/", addSlash := true, cpat := none, handlers := [(ascii "GET", 7)] }

/-- C4 witness intermediate state: /d/ inserted under its slashed key. -/
def r1D : Router :=
  { Router.new with
    simpleMatch := mapInsert Router.new.simpleMatch (ascii "/d/") routeD }

/-- C4 witness final state: /d/ also inserted under the slash-less key. -/
def r2D : Router :=
  { r1D with simpleMatch := mapInsert r1D.simpleMatch ((ascii "/d/").dropLast) routeD }

/-- C4 witness: registering /d/ stores the route under /d/ and /d; a request
for /d with a query is answered with a 301 redirect to /d/ plus the query,
and a request for /d/ runs the GET handler. -/
theorem trailing_slash_literal_route_witness :
    Router.add semDigits Router.new (ascii "/d/") [(ascii "GET", 7)] = AddResult.ok r2D
    ∧ r2D.serve semDigits
        { requestURI := ascii "/d?a=1", urlPath := ascii "/d",
          rawQuery := ascii "a=1", method := ascii "GET" } =
        Outcome.redirect (ascii "/d/?a=1")
    ∧ r2D.serve semDigits
        { requestURI := ascii "/d/", urlPath := ascii "/d/", rawQuery := [],
          method := ascii "GET" } = Outcome.handled 7 [] := by
  have H := trailing_slash_literal_route semDigits Router.new (ascii "/d/")
    [(ascii "GET", 7)] 7 (ascii "GET") (ascii "a=1") routeD r1D r2D
    (by decide) (by decide) (by decide) (by decide) (by decide) rfl rfl rfl rfl
  refine ⟨H.1.1 (by decide), ?_, ?_⟩
  · have h2 := H.2.2.1 (by decide) (by decide) (by decide) (by decide) (by decide)
    rw [show (ascii "/d/").dropLast = ascii "/d" from by decide] at h2
    rw [show ascii "/d" ++ 63 :: ascii "a=1" = ascii "/d?a=1" from by decide] at h2
    rw [h2]
    decide
  · exact H.2.2.2 (by decide) (by decide) (by decide)
